import Mathlib

/-!
# CHIP-8 interpreter core (`src/chip8/src-old/chip8.cpp`)

A shallow embedding of the class `chip8` and of its method `emulateCycle`,
followed by theorems about single steps of the interpreter.

Conventions of the embedding:

* C arrays are total maps `Nat → Nat`; an access whose index may leave the
  array is guarded, and the step then ends in `Except.error` carrying the
  array that was indexed out of bounds.  Such an access is undefined behaviour
  in C++: the error value of this model stands for "the code performs an
  out-of-bounds access here", never for an error the code reports.
* Unsigned machine integers are `Nat`; a store whose value may exceed the
  width of its 8-bit or 16-bit object is followed by the reduction modulo
  `2^8` or `2^16` (`u8`, `u16`, `u8i`).
* The header `include/chip8.h` is not among the sources.  The widths of the
  data members and the operand macros `X`, `Y`, `KK`, `NNN` are taken from
  section 3 and section 4.2 of the specification; each such definition says so.
* The three calls into the environment (`rand`, `getch`, `GetKeyState`) take
  their result from a `Host` record passed to the step.
-/

/-- Undefined behaviour met by a step: the array that was indexed outside its
bounds.  The source never checks an index, so this is not an error the program
reports. -/
inductive Undefined where
  | memory_index
  | stack_index
  deriving DecidableEq, Repr

/-- Results of the environment calls made by one step: `rand()`, `getch()`
and `GetKeyState(key)`. -/
structure Host where
  rand : Nat
  getch : Nat
  GetKeyState : Nat → Nat

/-- Modelled from the spec: the data members of class `chip8`, declared in the
missing header `include/chip8.h`.  Section 3 gives memory as 4096 bytes, 16
general registers of 8 bits, a 16-bit index register and program counter, a
call stack of depth 16 with a stack pointer, two 8-bit timers and a 64x32
framebuffer.  The stack pointer is taken to be an unsigned 16-bit value like
the addresses on the stack.  `cout` records the opcodes written to `std::cout`
by the `unknown_opcode` label, most recent first. -/
structure chip8 where
  memory : Nat → Nat
  V : Nat → Nat
  I : Nat
  pc : Nat
  stack : Nat → Nat
  sp : Nat
  delay_timer : Nat
  sound_timer : Nat
  gfx : Nat → Nat
  draw_flag : Bool
  opcode : Nat
  cout : List Nat

namespace chip8

/-- Modelled from the spec: `sizeof(memory)`, 4096 addresses (header missing). -/
def memory_size : Nat := 4096

/-- Modelled from the spec: depth of the call stack, 16 (header missing). -/
def stack_size : Nat := 16

/-- Modelled from the spec: number of framebuffer cells, 64 * 32 (header missing). -/
def gfx_size : Nat := 64 * 32

/-- Conversion of a value to `unsigned char` on a store. -/
def u8 (n : Nat) : Nat := n % 256

/-- Conversion of a value to `unsigned short` on a store. -/
def u16 (n : Nat) : Nat := n % 65536

/-- Conversion of a possibly negative `int` to `unsigned char` on a store. -/
def u8i (z : Int) : Nat := (z % 256).toNat

/-- Array store `a[i] = v`. -/
def setAt (a : Nat → Nat) (i v : Nat) : Nat → Nat :=
  fun j => if j = i then v else a j

/-- Modelled from the spec: macro `X` of the missing header, the 4-bit field
selecting a general register in bits 8-11 of the instruction word. -/
def X (opcode : Nat) : Nat := opcode / 256 % 16

/-- Modelled from the spec: macro `Y` of the missing header, the 4-bit field
selecting a general register in bits 4-7 of the instruction word. -/
def Y (opcode : Nat) : Nat := opcode / 16 % 16

/-- Modelled from the spec: macro `KK` of the missing header, the 8-bit
immediate in the low 8 bits of the instruction word. -/
def KK (opcode : Nat) : Nat := opcode % 256

/-- Modelled from the spec: macro `NNN` of the missing header, the 12-bit
address field in the low 12 bits of the instruction word. -/
def NNN (opcode : Nat) : Nat := opcode % 4096

/-- Statement `pc += 2`. -/
def pc_add2 (s : chip8) : chip8 := { s with pc := u16 (s.pc + 2) }

/-- Label `unknown_opcode`: `std::cout << "Unknown opcode: " << opcode`. -/
def unknown_opcode (s : chip8) : chip8 := { s with cout := s.opcode :: s.cout }

/-- One iteration of the loop body of `timer_loop`, after the sleep. -/
def timer_tick (s : chip8) : chip8 :=
  let s1 := if s.delay_timer > 0 then { s with delay_timer := u8i (s.delay_timer - 1) } else s
  if s1.sound_timer > 0 then { s1 with sound_timer := u8i (s1.sound_timer - 1) } else s1

/-- Case `0x0000` of the outer switch: `00E0 CLS` and `00EE RET`, selected by
`opcode & 0x000F`. -/
def case_0x0000 (s : chip8) : Except Undefined chip8 :=
  if s.opcode &&& 0x000F = 0x0000 then
    -- memset(gfx, 0, sizeof(gfx)); break;
    .ok { s with gfx := fun _ => 0 }
  else if s.opcode &&& 0x000F = 0x000E then
    -- pc = stack[sp--] + 1; break;
    if s.sp < stack_size then
      .ok { s with pc := u16 (s.stack s.sp + 1), sp := u16 (s.sp + 65535) }
    else .error .stack_index
  else
    .ok (unknown_opcode s)

/-- Case `0x2000`: `stack[sp] = pc; ++sp; pc = NNN;`. -/
def case_0x2000 (s : chip8) : Except Undefined chip8 :=
  if s.sp < stack_size then
    .ok { s with stack := setAt s.stack s.sp s.pc, sp := u16 (s.sp + 1), pc := NNN s.opcode }
  else .error .stack_index

/-- Case `0x3000`: `if (X == KK) pc += 2; pc += 2;`. -/
def case_0x3000 (s : chip8) : chip8 :=
  let s1 := if X s.opcode = KK s.opcode then pc_add2 s else s
  pc_add2 s1

/-- Case `0x4000`: `if (X != KK) pc += 2; pc += 2;`. -/
def case_0x4000 (s : chip8) : chip8 :=
  let s1 := if X s.opcode ≠ KK s.opcode then pc_add2 s else s
  pc_add2 s1

/-- Case `0x5000`: `if (X == Y) pc += 2; pc += 2;`. -/
def case_0x5000 (s : chip8) : chip8 :=
  let s1 := if X s.opcode = Y s.opcode then pc_add2 s else s
  pc_add2 s1

/-- Case `0x9000`: `pc += (V[X] != V[Y]) ? 2 : 0; pc += 2;`. -/
def case_0x9000 (s : chip8) : chip8 :=
  let s1 := { s with pc := u16 (s.pc + (if s.V (X s.opcode) ≠ s.V (Y s.opcode) then 2 else 0)) }
  pc_add2 s1

/-- Case `0x8000`: the register-to-register operations, selected by
`opcode & 0x000F`. -/
def case_0x8000 (s : chip8) : chip8 :=
  let x := X s.opcode
  let y := Y s.opcode
  if s.opcode &&& 0x000F = 0x0000 then
    -- V[X] = V[Y];
    pc_add2 { s with V := setAt s.V x (s.V y) }
  else if s.opcode &&& 0x000F = 0x0001 then
    -- V[X] |= V[Y];
    pc_add2 { s with V := setAt s.V x (u8 (s.V x ||| s.V y)) }
  else if s.opcode &&& 0x000F = 0x0002 then
    -- V[X] &= V[Y];
    pc_add2 { s with V := setAt s.V x (u8 (s.V x &&& s.V y)) }
  else if s.opcode &&& 0x000F = 0x0003 then
    -- V[X] ^= V[Y];
    pc_add2 { s with V := setAt s.V x (u8 (s.V x ^^^ s.V y)) }
  else if s.opcode &&& 0x000F = 0x0004 then
    -- if ((V[X] += V[Y]) > 255) V[0xF] = 1; else V[0xF] = 0;
    -- the compared value is V[X] after the store, an unsigned char
    let V1 := setAt s.V x (u8 (s.V x + s.V y))
    let V2 := if V1 x > 255 then setAt V1 0xF 1 else setAt V1 0xF 0
    -- V[X] &= 0x00FF;
    let V3 := setAt V2 x (u8 (V2 x &&& 0x00FF))
    pc_add2 { s with V := V3 }
  else if s.opcode &&& 0x000F = 0x0005 then
    -- V[X] -= V[Y];
    let V1 := setAt s.V x (u8i ((s.V x : Int) - (s.V y : Int)))
    -- V[0xF] = V[X] > V[Y];
    let V2 := setAt V1 0xF (if V1 x > V1 y then 1 else 0)
    pc_add2 { s with V := V2 }
  else if s.opcode &&& 0x000F = 0x0006 then
    -- V[0xF] = V[X] & 1;
    let V1 := setAt s.V 0xF (u8 (s.V x &&& 1))
    -- V[X] >>= 1;
    let V2 := setAt V1 x (u8 (V1 x >>> 1))
    pc_add2 { s with V := V2 }
  else if s.opcode &&& 0x000F = 0x0007 then
    -- V[0xF] = V[Y] > V[X];
    let V1 := setAt s.V 0xF (if s.V y > s.V x then 1 else 0)
    -- V[X] = V[Y] - V[X];
    let V2 := setAt V1 x (u8i ((V1 y : Int) - (V1 x : Int)))
    pc_add2 { s with V := V2 }
  else if s.opcode &&& 0x000F = 0x000E then
    -- V[X] <<= 1;
    let V1 := setAt s.V x (u8 (s.V x <<< 1))
    -- V[0xF] = V[X] & 0x80;
    let V2 := setAt V1 0xF (u8 (V1 x &&& 0x80))
    pc_add2 { s with V := V2 }
  else
    unknown_opcode s

/-- Index into `gfx` used by the draw loop: `X + x_line + ((Y + yline) * 64)`. -/
def gfx_index (opcode yline x_line : Nat) : Nat :=
  X opcode + x_line + ((Y opcode + yline) * 64)

/-- Body of the inner draw loop for one `x_line`:
`if ((pixel & (0x80 >> x_line)) != 0) { if (gfx[..] == 1) V[0xF] = 1; gfx[..] ^= 1; }`.
The index stays below `gfx_size` for every opcode (`gfx_index_lt`), and
`^= 1` changes bit 0 only, so the stored cell needs no reduction. -/
def draw_pixel (pixel yline : Nat) (s : chip8) (x_line : Nat) : chip8 :=
  if pixel &&& (0x80 >>> x_line) ≠ 0 then
    let s1 := if s.gfx (gfx_index s.opcode yline x_line) = 1 then { s with V := setAt s.V 0xF 1 } else s
    { s1 with gfx := setAt s1.gfx (gfx_index s.opcode yline x_line)
                      (s1.gfx (gfx_index s.opcode yline x_line) ^^^ 1) }
  else s

/-- Body of the outer draw loop for one `yline`: `pixel = memory[I + yline];`
followed by the inner loop `for (x_line = 0; x_line < 8; x_line++)`. -/
def draw_row (s : chip8) (yline : Nat) : Except Undefined chip8 :=
  if s.I + yline < memory_size then
    .ok ((List.range 8).foldl (draw_pixel (s.memory (s.I + yline)) yline) s)
  else .error .memory_index

/-- Case `0xD000`: `Dxyn DRW`. -/
def case_0xD000 (s : chip8) : Except Undefined chip8 :=
  -- unsigned short height = opcode & 0x000F;
  let height := s.opcode &&& 0x000F
  -- V[0xF] = 0;
  let s0 := { s with V := setAt s.V 0xF 0 }
  -- for (int yline = 0; yline < height; yline++) { ... }
  match (List.range height).foldlM draw_row s0 with
  | .ok s1 =>
    -- draw_flag = true; pc += 2;
    .ok (pc_add2 { s1 with draw_flag := true })
  | .error e => .error e

/-- Case `0xE000`: `Ex9E SKP` and `ExA1 SKNP`, selected by `opcode & 0x000F`. -/
def case_0xE000 (h : Host) (s : chip8) : chip8 :=
  if s.opcode &&& 0x000F = 0x000E then
    -- if (GetKeyState(V[X]) & 0x8000) pc += 2;   pc += 2;
    let s1 := if h.GetKeyState (s.V (X s.opcode)) &&& 0x8000 ≠ 0 then pc_add2 s else s
    pc_add2 s1
  else if s.opcode &&& 0x000F = 0x0001 then
    -- if (!(GetKeyState(V[X]) & 0x8000)) pc += 2;   pc += 2;
    let s1 := if h.GetKeyState (s.V (X s.opcode)) &&& 0x8000 = 0 then pc_add2 s else s
    pc_add2 s1
  else
    unknown_opcode s

/-- Case `0x0020` of the switch on `opcode & 0x00F0` inside case `0xF000`:
`I = memory[V[X] * 5]; pc += 2; break;`.  The `break` leaves the inner switch
only; case `0xF000` has no `break` of its own, so control then falls into the
`default` of the outer switch, where the `unknown_opcode` label is. -/
def case_F_0x0020 (s : chip8) : Except Undefined chip8 :=
  if s.V (X s.opcode) * 5 < memory_size then
    .ok (unknown_opcode (pc_add2 { s with I := s.memory (s.V (X s.opcode) * 5) }))
  else .error .memory_index

/-- Case `0x0010` of the switch on `opcode & 0x00F0`: `Fx15`, `Fx18`, `Fx1E`.
Each `break` leaves the switch on `opcode & 0x000F` only, and the case has no
`break` of its own: control falls through into case `0x0020`. -/
def case_F_0x0010 (s : chip8) : Except Undefined chip8 :=
  if s.opcode &&& 0x000F = 0x0005 then
    -- delay_timer = V[X]; pc += 2;
    case_F_0x0020 (pc_add2 { s with delay_timer := u8 (s.V (X s.opcode)) })
  else if s.opcode &&& 0x000F = 0x0008 then
    -- sound_timer = V[X]; pc += 2;
    case_F_0x0020 (pc_add2 { s with sound_timer := u8 (s.V (X s.opcode)) })
  else if s.opcode &&& 0x000F = 0x000E then
    -- I += V[X]; pc += 2;
    case_F_0x0020 (pc_add2 { s with I := u16 (s.I + s.V (X s.opcode)) })
  else
    .ok (unknown_opcode s)

/-- Case `0x0000` of the switch on `opcode & 0x00F0`: `Fx07`, `Fx0A`.  The
case has no `break` of its own: control falls through into case `0x0010`. -/
def case_F_0x0000 (h : Host) (s : chip8) : Except Undefined chip8 :=
  if s.opcode &&& 0x000F = 0x0007 then
    -- V[X] = delay_timer;
    case_F_0x0010 { s with V := setAt s.V (X s.opcode) (u8 s.delay_timer) }
  else if s.opcode &&& 0x000F = 0x000A then
    -- key = getch(); V[X] = key; pc += 2;
    case_F_0x0010 (pc_add2 { s with V := setAt s.V (X s.opcode) (u8 h.getch) })
  else
    .ok (unknown_opcode s)

/-- Loop `for (i = 0; i < X; ++i) memory[I + i] = V[0 + i];` of `Fx55`. -/
def store_regs (s : chip8) : Except Undefined chip8 :=
  (List.range (X s.opcode)).foldlM
    (fun (t : chip8) (i : Nat) =>
      if t.I + i < memory_size then
        Except.ok { t with memory := setAt t.memory (t.I + i) (u8 (t.V (0 + i))) }
      else Except.error Undefined.memory_index) s

/-- Loop `for (i = 0; i < X; ++i) V[i] = memory[I + i];` of `Fx65`. -/
def load_regs (s : chip8) : Except Undefined chip8 :=
  (List.range (X s.opcode)).foldlM
    (fun (t : chip8) (i : Nat) =>
      if t.I + i < memory_size then
        Except.ok { t with V := setAt t.V i (u8 (t.memory (t.I + i))) }
      else Except.error Undefined.memory_index) s

/-- Case `0xF000`: switch on `opcode & 0x00F0`.  Every path that leaves this
switch normally falls into the `default` of the outer switch and so reaches
the `unknown_opcode` label. -/
def case_0xF000 (h : Host) (s : chip8) : Except Undefined chip8 :=
  if s.opcode &&& 0x00F0 = 0x0000 then
    case_F_0x0000 h s
  else if s.opcode &&& 0x00F0 = 0x0010 then
    case_F_0x0010 s
  else if s.opcode &&& 0x00F0 = 0x0020 then
    case_F_0x0020 s
  else if s.opcode &&& 0x00F0 = 0x0030 then
    -- memory[I] = V[X] % 10;
    -- memory[I + 1] = round((V[X] / 10) % 10);
    -- memory[I + 2] = round((V[X] / 100) % 10);
    -- break;
    if s.I + 2 < memory_size then
      let m1 := setAt s.memory s.I (u8 (s.V (X s.opcode) % 10))
      let m2 := setAt m1 (s.I + 1) (u8 ((s.V (X s.opcode) / 10) % 10))
      let m3 := setAt m2 (s.I + 2) (u8 ((s.V (X s.opcode) / 100) % 10))
      .ok (unknown_opcode { s with memory := m3 })
    else .error .memory_index
  else if s.opcode &&& 0x00F0 = 0x0050 then
    match store_regs s with
    | .ok s1 => .ok (unknown_opcode (pc_add2 s1))
    | .error e => .error e
  else if s.opcode &&& 0x00F0 = 0x0060 then
    match load_regs s with
    | .ok s1 => .ok (unknown_opcode (pc_add2 s1))
    | .error e => .error e
  else
    .ok (unknown_opcode s)

/-- The switch on `opcode & 0xF000` of `emulateCycle`, run on a state whose
`opcode` member has been fetched. -/
def execute (h : Host) (s : chip8) : Except Undefined chip8 :=
  if s.opcode &&& 0xF000 = 0x0000 then case_0x0000 s
  else if s.opcode &&& 0xF000 = 0x1000 then
    -- pc = NNN;
    .ok { s with pc := NNN s.opcode }
  else if s.opcode &&& 0xF000 = 0x2000 then case_0x2000 s
  else if s.opcode &&& 0xF000 = 0x3000 then .ok (case_0x3000 s)
  else if s.opcode &&& 0xF000 = 0x4000 then .ok (case_0x4000 s)
  else if s.opcode &&& 0xF000 = 0x5000 then .ok (case_0x5000 s)
  else if s.opcode &&& 0xF000 = 0x6000 then
    -- V[X] = KK; pc += 2;
    .ok (pc_add2 { s with V := setAt s.V (X s.opcode) (KK s.opcode) })
  else if s.opcode &&& 0xF000 = 0x7000 then
    -- V[X] += KK; pc += 2;
    .ok (pc_add2 { s with V := setAt s.V (X s.opcode) (u8 (s.V (X s.opcode) + KK s.opcode)) })
  else if s.opcode &&& 0xF000 = 0x8000 then .ok (case_0x8000 s)
  else if s.opcode &&& 0xF000 = 0x9000 then .ok (case_0x9000 s)
  else if s.opcode &&& 0xF000 = 0xA000 then
    -- I = opcode & 0x0FFF; pc += 2;
    .ok (pc_add2 { s with I := s.opcode &&& 0x0FFF })
  else if s.opcode &&& 0xF000 = 0xB000 then
    -- pc = NNN + V[0x0]; pc += 2;
    .ok (pc_add2 { s with pc := u16 (NNN s.opcode + s.V 0x0) })
  else if s.opcode &&& 0xF000 = 0xC000 then
    -- auto randVal = (unsigned char) rand(); V[X] = randVal & KK; pc += 2;
    .ok (pc_add2 { s with V := setAt s.V (X s.opcode) (u8 h.rand &&& KK s.opcode) })
  else if s.opcode &&& 0xF000 = 0xD000 then case_0xD000 s
  else if s.opcode &&& 0xF000 = 0xE000 then .ok (case_0xE000 h s)
  else if s.opcode &&& 0xF000 = 0xF000 then case_0xF000 h s
  else .ok (unknown_opcode s)

/-- Method `chip8::emulateCycle`: fetch
`opcode = memory[pc] << 8 | memory[pc + 1];` and dispatch. -/
def emulateCycle (h : Host) (s : chip8) : Except Undefined chip8 :=
  if s.pc + 1 < memory_size then
    execute h { s with opcode := u16 (s.memory s.pc <<< 8 ||| s.memory (s.pc + 1)) }
  else .error .memory_index

/-- Repeated steps: the loop of `main` around `emulateCycle`, cut after a
given number of iterations; an undefined step ends the run. -/
def emulateCycles (h : Host) : Nat → chip8 → Except Undefined chip8
  | 0, s => .ok s
  | n + 1, s =>
    match emulateCycle h s with
    | .ok s1 => emulateCycles h n s1
    | .error e => .error e

/-! ## Auxiliary notions for the draw loop -/

/-- Test `(pixel & (0x80 >> x_line)) != 0` of the draw loop, with
`pixel = memory[I + yline]`. -/
def sprite_bit (s : chip8) (yline x_line : Nat) : Prop :=
  s.memory (s.I + yline) &&& (0x80 >>> x_line) ≠ 0

/-- Iterations `(y, x)` of the draw loop that run before iteration
`(yline, x_line)`. -/
def drawn_before (yline x_line y x : Nat) : Prop :=
  x < 8 ∧ (y < yline ∨ (y = yline ∧ x < x_line))

/-- Invariant of the draw loop at the start of iteration `(yline, x_line)`:
`s0` is the state on entry to the loop, `t` the current state. -/
structure DrawInv (s0 t : chip8) (yline x_line : Nat) : Prop where
  frame : t = { s0 with V := t.V, gfx := t.gfx }
  regs : ∀ j, j ≠ 0xF → t.V j = s0.V j
  flipped : ∀ i, (∃ y x, drawn_before yline x_line y x ∧ sprite_bit s0 y x ∧
      gfx_index s0.opcode y x = i) → t.gfx i = s0.gfx i ^^^ 1
  kept : ∀ i, (¬ ∃ y x, drawn_before yline x_line y x ∧ sprite_bit s0 y x ∧
      gfx_index s0.opcode y x = i) → t.gfx i = s0.gfx i
  hit : (∃ y x, drawn_before yline x_line y x ∧ sprite_bit s0 y x ∧
      s0.gfx (gfx_index s0.opcode y x) = 1) → t.V 0xF = 1
  miss : (¬ ∃ y x, drawn_before yline x_line y x ∧ sprite_bit s0 y x ∧
      s0.gfx (gfx_index s0.opcode y x) = 1) → t.V 0xF = s0.V 0xF

/-- Cell `i` is flipped by the draw instruction held in `s.opcode`. -/
def flips (s : chip8) (i : Nat) : Prop :=
  ∃ y x, y < (s.opcode &&& 0x000F) ∧ x < 8 ∧ sprite_bit s y x ∧ gfx_index s.opcode y x = i

/-- Some cell flipped by the draw instruction held in `s.opcode` is `1` in `s`. -/
def collides (s : chip8) : Prop :=
  ∃ y x, y < (s.opcode &&& 0x000F) ∧ x < 8 ∧ sprite_bit s y x ∧
    s.gfx (gfx_index s.opcode y x) = 1

/-! ## Concrete machines used as inputs -/

/-- A host whose environment calls all return 0. -/
def host0 : Host := { rand := 0, getch := 0, GetKeyState := fun _ => 0 }

/-- A machine with every cell zero and `pc = 0x200`. -/
def blank : chip8 :=
  { memory := fun _ => 0, V := fun _ => 0, I := 0, pc := 0x200, stack := fun _ => 0, sp := 0,
    delay_timer := 0, sound_timer := 0, gfx := fun _ => 0, draw_flag := false, opcode := 0,
    cout := [] }

/-- Memory `m` with the bytes `bytes` written from address `addr` on. -/
def poke (m : Nat → Nat) (addr : Nat) (bytes : List Nat) : Nat → Nat :=
  fun a => if addr ≤ a ∧ a < addr + bytes.length then bytes.getD (a - addr) 0 else m a

/-- Instruction `8014` (ADD V0, V1) at `0x200`, with `V0 = 200` and `V1 = 100`. -/
def add_state : chip8 :=
  { blank with memory := poke blank.memory 0x200 [0x80, 0x14],
               V := setAt (setAt blank.V 0 200) 1 100 }

/-- Instruction `8015` (SUB V0, V1) at `0x200`, with `V0 = 5` and `V1 = 3`. -/
def sub_state : chip8 :=
  { blank with memory := poke blank.memory 0x200 [0x80, 0x15],
               V := setAt (setAt blank.V 0 5) 1 3 }

/-- Instruction `800E` (SHL V0) at `0x200`, with `V0 = 0x80`. -/
def shl_state : chip8 :=
  { blank with memory := poke blank.memory 0x200 [0x80, 0x0E],
               V := setAt blank.V 0 0x80 }

/-- Instruction `3005` (SE V0, 5) at `0x200`, with `V0 = 5`. -/
def se_byte_state : chip8 :=
  { blank with memory := poke blank.memory 0x200 [0x30, 0x05],
               V := setAt blank.V 0 5 }

/-- Instruction `4000` (SNE V0, 0) at `0x200`, with `V0 = 5`. -/
def sne_byte_state : chip8 :=
  { blank with memory := poke blank.memory 0x200 [0x40, 0x00],
               V := setAt blank.V 0 5 }

/-- Instruction `5010` (SE V0, V1) at `0x200`, with `V0 = V1 = 5`. -/
def se_reg_state : chip8 :=
  { blank with memory := poke blank.memory 0x200 [0x50, 0x10],
               V := setAt (setAt blank.V 0 5) 1 5 }

/-- Instruction `D011` (DRW V0, V1, 1) at `0x200`, with `V0 = 60`, `V1 = 5`,
`I = 0x300` and the sprite row `0xFF` at `0x300`; the framebuffer is clear. -/
def draw_state : chip8 :=
  { blank with memory := poke (poke blank.memory 0x200 [0xD0, 0x11]) 0x300 [0xFF],
               V := setAt (setAt blank.V 0 60) 1 5, I := 0x300 }

/-- Instruction `D012` (DRW V0, V1, 2) at `0x200` and again at `0x202`, with
`I = 0x300`, the sprite rows `0xA5`, `0x3C` at `0x300`, and a framebuffer with
cells 64 and 130 set. -/
def redraw_state : chip8 :=
  { blank with memory := poke (poke blank.memory 0x200 [0xD0, 0x12, 0xD0, 0x12]) 0x300 [0xA5, 0x3C],
               I := 0x300, gfx := setAt (setAt blank.gfx 64 1) 130 1 }

/-- Instruction `D011` (DRW V0, V1, 1) at `0x200`, with `I = 0x300`, the sprite
row `0xFF` at `0x300`, `VF = 7`, and a framebuffer with cell 66 set. -/
def collide_state : chip8 :=
  { blank with memory := poke (poke blank.memory 0x200 [0xD0, 0x11]) 0x300 [0xFF],
               I := 0x300, V := setAt blank.V 0xF 7, gfx := setAt blank.gfx 66 1 }

/-- Instruction `2300` (CALL 0x300) at `0x200` and `00EE` (RET) at `0x300`, on
an empty stack. -/
def call_ret_state : chip8 :=
  { blank with memory := poke (poke blank.memory 0x200 [0x23, 0x00]) 0x300 [0x00, 0xEE] }

/-- Instruction `F033` (LD B, V0) at `0x200`, with `V0 = 234` and `I = 0x300`. -/
def bcd_state : chip8 :=
  { blank with memory := poke blank.memory 0x200 [0xF0, 0x33],
               V := setAt blank.V 0 234, I := 0x300 }

/-! ## Timer loop and initialisation -/

/-- The first `n` iterations of the loop of `timer_loop`; the sleep changes no
member. -/
def timer_ticks : Nat → chip8 → chip8
  | 0, s => s
  | n + 1, s => timer_ticks n (timer_tick s)

/-- Method `chip8::timer_loop`: `for(;;) { sleep; tick }`.  The loop has no
condition, no `break` and no `return`.  `fuel` is the number of iterations
followed; the result `none` says that the call has not returned within them,
and no equation of the definition produces `some`, as no path of the source
leaves the loop. -/
def timer_loop : Nat → chip8 → Option chip8
  | 0, _ => none
  | fuel + 1, s => timer_loop fuel (timer_tick s)

/-- The statements of `chip8::initialize` that come before its last one, the
call `timer_loop()`.  The table `chip8_fontset` is declared in the missing
header and is a parameter here.  No statement assigns `pc` or `opcode`. -/
def reset_members (chip8_fontset : Nat → Nat) (s : chip8) : chip8 :=
  -- memset(gfx, 0, ..); memset(stack, 0, ..); memset(V, 0, ..); memset(memory, 0, ..);
  let s1 : chip8 :=
    { s with gfx := fun _ => 0, stack := fun _ => 0, V := fun _ => 0, memory := fun _ => 0 }
  -- for (int i = 0; i < 80; ++i) memory[i] = chip8_fontset[i];
  let s2 : chip8 :=
    { s1 with memory := (List.range 80).foldl (fun m i => setAt m i (u8 (chip8_fontset i)))
                          s1.memory }
  -- I = 0; sp = 0; draw_flag = false; delay_timer = 0; sound_timer = 0;
  { s2 with I := 0, sp := 0, draw_flag := false, delay_timer := 0, sound_timer := 0 }

end chip8

/-- Method `chip8::initialize`: the resets, then the call `timer_loop()`, with
the fuel of that call. -/
def chip8.initialize (fuel : Nat) (chip8_fontset : Nat → Nat) (s : chip8) : Option chip8 :=
  chip8.timer_loop fuel (chip8.reset_members chip8_fontset s)

namespace chip8

/-! ## More concrete machines -/

/-- The blank machine with the bytes `bytes` at `0x200`. -/
def rom (bytes : List Nat) : chip8 :=
  { blank with memory := poke blank.memory 0x200 bytes }

/-- Instruction word `5231` at `0x200`, with `V2 = V3 = 7`. -/
def word_5231_state : chip8 :=
  { rom [0x52, 0x31] with V := setAt (setAt blank.V 2 7) 3 7 }

/-- Instruction `F029` (LD F, V0) at `0x200`, with `V0 = 2` and the byte `0xF0`
at address 10. -/
def font_state : chip8 :=
  { blank with memory := poke (poke blank.memory 0x200 [0xF0, 0x29]) 10 [0xF0],
               V := setAt blank.V 0 2 }

/-- Instruction `F155` (LD [I], V1) at `0x200`, with `V0 = 0xAA`, `V1 = 0xBB`,
`I = 0x300` and the bytes `0x11`, `0x22` at `0x300`. -/
def store_state : chip8 :=
  { blank with memory := poke (poke blank.memory 0x200 [0xF1, 0x55]) 0x300 [0x11, 0x22],
               V := setAt (setAt blank.V 0 0xAA) 1 0xBB, I := 0x300 }

/-- Instruction `F01E` (ADD I, V0) at `0x200`, with `V0 = 3`, `I = 0x300` and
the byte `0x70` at address 15. -/
def add_index_state : chip8 :=
  { blank with memory := poke (poke blank.memory 0x200 [0xF0, 0x1E]) 15 [0x70],
               V := setAt blank.V 0 3, I := 0x300 }

/-- Instruction `B300` (JP V0, 0x300) at `0x200`, with `V0 = 4`. -/
def jump_v0_state : chip8 :=
  { rom [0xB3, 0x00] with V := setAt blank.V 0 4 }

/-- Instruction `8017` (SUBN V0, V1) at `0x200`, with `V0 = 9` and `V1 = 5`. -/
def subn_state : chip8 :=
  { rom [0x80, 0x17] with V := setAt (setAt blank.V 0 9) 1 5 }

/-- Instruction `8006` (SHR V0) at `0x200`, with `V0 = 7`. -/
def shr_state : chip8 :=
  { rom [0x80, 0x06] with V := setAt blank.V 0 7 }

/-- A machine with the delay timer at 10 and the sound timer at 3. -/
def timer_state : chip8 :=
  { blank with delay_timer := 10, sound_timer := 3 }

/-- Instruction `F015` (LD DT, V0) at `0x200`, with `V0 = 3`, `I = 0x300`, the
sound timer at 9 and the byte `0x70` at address 15. -/
def set_delay_state : chip8 :=
  { blank with memory := poke (poke blank.memory 0x200 [0xF0, 0x15]) 15 [0x70],
               V := setAt blank.V 0 3, I := 0x300, sound_timer := 9 }

/-- Instruction `F018` (LD ST, V0) at `0x200`, with `V0 = 3`, `I = 0x300`, the
delay timer at 9 and the byte `0x70` at address 15. -/
def set_sound_state : chip8 :=
  { blank with memory := poke (poke blank.memory 0x200 [0xF0, 0x18]) 15 [0x70],
               V := setAt blank.V 0 3, I := 0x300, delay_timer := 9 }

/-! ## Decoding lemmas -/

/-- Masking with `m` one-bits placed at bit `k` selects the field `n / 2^k % 2^m`. -/
theorem and_mask_shifted (n k m : Nat) :
    n &&& (2 ^ k * (2 ^ m - 1)) = 2 ^ k * (n / 2 ^ k % 2 ^ m) := by
  apply Nat.eq_of_testBit_eq
  intro i
  rw [Nat.testBit_and, Nat.testBit_mul_pow_two, Nat.testBit_mul_pow_two,
    Nat.testBit_two_pow_sub_one, Nat.testBit_mod_two_pow, ← Nat.shiftRight_eq_div_pow,
    Nat.testBit_shiftRight]
  by_cases hi : k ≤ i
  · have : k + (i - k) = i := by omega
    simp [hi, this, Bool.and_comm]
  · simp [hi]

/-- The mask `opcode & 0xF000` is the top nibble, in place. -/
theorem and_0xF000 (n : Nat) : n &&& 0xF000 = 4096 * (n / 4096 % 16) :=
  and_mask_shifted n 12 4

/-- The mask `opcode & 0x00F0` is the third nibble, in place. -/
theorem and_0x00F0 (n : Nat) : n &&& 0x00F0 = 16 * (n / 16 % 16) :=
  and_mask_shifted n 4 4

/-- The mask `opcode & 0x000F` is the low nibble. -/
theorem and_0x000F (n : Nat) : n &&& 0x000F = n % 16 :=
  Nat.and_pow_two_sub_one_eq_mod n 4

/-- The mask `opcode & 0x0FFF` is the low 12 bits. -/
theorem and_0x0FFF (n : Nat) : n &&& 0x0FFF = n % 4096 :=
  Nat.and_pow_two_sub_one_eq_mod n 12

/-- The fetch expression `hi << 8 | lo` is `256 * hi + lo` for a byte `lo`. -/
theorem fetch_bytes (hi lo : Nat) (hlo : lo < 256) : hi <<< 8 ||| lo = 256 * hi + lo := by
  rw [Nat.shiftLeft_eq, Nat.mul_comm hi]
  exact (Nat.mul_add_lt_is_or (i := 8) hlo hi).symm

/-- A step whose two instruction bytes are `hi`, `lo` runs the switch on the
opcode `256 * hi + lo`. -/
theorem emulateCycle_eq (h : Host) (s : chip8) (hi lo : Nat)
    (hpc : s.pc + 1 < memory_size) (h0 : s.memory s.pc = hi) (h1 : s.memory (s.pc + 1) = lo)
    (hhi : hi < 256) (hlo : lo < 256) :
    emulateCycle h s = execute h { s with opcode := 256 * hi + lo } := by
  have e : u16 (hi <<< 8 ||| lo) = 256 * hi + lo := by
    rw [fetch_bytes hi lo hlo]; unfold u16; omega
  unfold emulateCycle
  rw [if_pos hpc, h0, h1, e]

/-- Dispatch on a top nibble of 13. -/
theorem execute_0xD000 (h : Host) (s : chip8) (ht : s.opcode / 4096 % 16 = 13) :
    execute h s = case_0xD000 s := by
  unfold execute
  simp only [and_0xF000, ht]
  simp

/-- Two iterations of the draw loop never address the same cell: `X + x_line`
stays below 64, so the index determines the row and the column. -/
theorem gfx_index_inj (op y x y' x' : Nat) (hx : x < 8) (hx' : x' < 8)
    (e : gfx_index op y x = gfx_index op y' x') : y = y' ∧ x = x' := by
  unfold gfx_index X Y at e
  omega

/-- The draw loop stays inside `gfx`: the largest index is
`15 + 7 + (15 + 15) * 64 < 2048`. -/
theorem gfx_index_lt (op y x : Nat) (hy : y < 16) (hx : x < 8) :
    gfx_index op y x < gfx_size := by
  unfold gfx_index X Y gfx_size
  omega

/-- The invariant holds on entry to the loop. -/
theorem DrawInv.init (s0 : chip8) : DrawInv s0 s0 0 0 := by
  refine ⟨rfl, fun _ _ => rfl, ?_, fun _ _ => rfl, ?_, fun _ => rfl⟩
  · rintro i ⟨y, x, ⟨-, h | h⟩, -⟩ <;> omega
  · rintro ⟨y, x, ⟨-, h | h⟩, -⟩ <;> omega

/-- The end of a row is the start of the next one. -/
theorem DrawInv.next_row {s0 t : chip8} {y : Nat} (inv : DrawInv s0 t y 8) :
    DrawInv s0 t (y + 1) 0 := by
  have e : ∀ y' x', drawn_before (y + 1) 0 y' x' ↔ drawn_before y 8 y' x' := by
    intro y' x'; unfold drawn_before; omega
  refine ⟨inv.frame, inv.regs, ?_, ?_, ?_, ?_⟩
  · intro i; simp only [e]; exact inv.flipped i
  · intro i; simp only [e]; exact inv.kept i
  · simp only [e]; exact inv.hit
  · simp only [e]; exact inv.miss

/-- Loop body on a set sprite bit. -/
theorem draw_pixel_set (p y : Nat) (t : chip8) (x : Nat) (hb : p &&& (0x80 >>> x) ≠ 0) :
    draw_pixel p y t x =
      { t with V := if t.gfx (gfx_index t.opcode y x) = 1 then setAt t.V 0xF 1 else t.V,
               gfx := setAt t.gfx (gfx_index t.opcode y x)
                        (t.gfx (gfx_index t.opcode y x) ^^^ 1) } := by
  unfold draw_pixel
  rw [if_pos hb]
  by_cases c : t.gfx (gfx_index t.opcode y x) = 1
  · simp only [c, if_true]
  · simp only [c, if_false]

/-- Loop body on a clear sprite bit. -/
theorem draw_pixel_clear (p y : Nat) (t : chip8) (x : Nat) (hb : ¬ p &&& (0x80 >>> x) ≠ 0) :
    draw_pixel p y t x = t := by
  unfold draw_pixel
  rw [if_neg hb]

/-- Iterations before `(yline, x_line + 1)`. -/
theorem drawn_before_succ (yline x_line y x : Nat) (hx : x_line < 8) :
    drawn_before yline (x_line + 1) y x ↔
      drawn_before yline x_line y x ∨ (y = yline ∧ x = x_line) := by
  unfold drawn_before; omega

/-- No iteration comes before itself. -/
theorem not_drawn_before_self (yline x_line : Nat) : ¬ drawn_before yline x_line yline x_line := by
  unfold drawn_before; omega

/-- The body of the inner loop keeps the invariant. -/
theorem DrawInv.step {s0 t : chip8} {y x : Nat} (hx : x < 8) (inv : DrawInv s0 t y x) :
    DrawInv s0 (draw_pixel (s0.memory (s0.I + y)) y t x) y (x + 1) := by
  have hop : t.opcode = s0.opcode := by rw [inv.frame]
  by_cases hb : s0.memory (s0.I + y) &&& (0x80 >>> x) ≠ 0
  · -- the sprite bit is set: the cell is tested and flipped
    have hcell : t.gfx (gfx_index s0.opcode y x) = s0.gfx (gfx_index s0.opcode y x) := by
      apply inv.kept
      rintro ⟨y', x', hd, -, e⟩
      obtain ⟨rfl, rfl⟩ := gfx_index_inj _ _ _ _ _ hd.1 hx e
      exact not_drawn_before_self _ _ hd
    rw [draw_pixel_set _ _ _ _ hb, hop, hcell]
    refine ⟨?_, ?_, ?_, ?_, ?_, ?_⟩
    · conv_lhs => rw [inv.frame]
    · intro j hj
      by_cases c : s0.gfx (gfx_index s0.opcode y x) = 1
      · simp only [c, if_true, setAt, if_neg hj]; exact inv.regs j hj
      · simp only [c, if_false]; exact inv.regs j hj
    · rintro i ⟨y', x', hd, hs, e⟩
      rcases (drawn_before_succ _ _ _ _ hx).1 hd with hd' | ⟨rfl, rfl⟩
      · have hne : i ≠ gfx_index s0.opcode y x := by
          rintro rfl
          obtain ⟨rfl, rfl⟩ := gfx_index_inj _ _ _ _ _ hd'.1 hx e
          exact not_drawn_before_self _ _ hd'
        simp only [setAt, if_neg hne]
        exact inv.flipped i ⟨y', x', hd', hs, e⟩
      · subst e
        simp only [setAt, if_true]
    · intro i hi
      have hne : i ≠ gfx_index s0.opcode y x := by
        rintro rfl
        exact hi ⟨y, x, (drawn_before_succ _ _ _ _ hx).2 (Or.inr ⟨rfl, rfl⟩), hb, rfl⟩
      simp only [setAt, if_neg hne]
      apply inv.kept
      rintro ⟨y', x', hd, hs, e⟩
      exact hi ⟨y', x', (drawn_before_succ _ _ _ _ hx).2 (Or.inl hd), hs, e⟩
    · rintro ⟨y', x', hd, hs, e⟩
      rcases (drawn_before_succ _ _ _ _ hx).1 hd with hd' | ⟨rfl, rfl⟩
      · have h1 : t.V 0xF = 1 := inv.hit ⟨y', x', hd', hs, e⟩
        by_cases c : s0.gfx (gfx_index s0.opcode y x) = 1
        · simp only [c, if_true, setAt]
        · simp only [c, if_false]; exact h1
      · simp only [e, if_true, setAt]
    · intro hno
      have c : ¬ s0.gfx (gfx_index s0.opcode y x) = 1 := fun c =>
        hno ⟨y, x, (drawn_before_succ _ _ _ _ hx).2 (Or.inr ⟨rfl, rfl⟩), hb, c⟩
      simp only [c, if_false]
      apply inv.miss
      rintro ⟨y', x', hd, hs, e⟩
      exact hno ⟨y', x', (drawn_before_succ _ _ _ _ hx).2 (Or.inl hd), hs, e⟩
  · -- the sprite bit is clear: nothing is done
    rw [draw_pixel_clear _ _ _ _ hb]
    have e : ∀ y' x', (drawn_before y (x + 1) y' x' ∧ sprite_bit s0 y' x') ↔
        (drawn_before y x y' x' ∧ sprite_bit s0 y' x') := by
      intro y' x'
      rw [drawn_before_succ _ _ _ _ hx]
      constructor
      · rintro ⟨hd | ⟨rfl, rfl⟩, hs⟩
        · exact ⟨hd, hs⟩
        · exact absurd hs hb
      · rintro ⟨hd, hs⟩
        exact ⟨Or.inl hd, hs⟩
    refine ⟨inv.frame, inv.regs, ?_, ?_, ?_, ?_⟩
    · rintro i ⟨y', x', hd, hs, e'⟩
      exact inv.flipped i ⟨y', x', ((e y' x').1 ⟨hd, hs⟩).1, hs, e'⟩
    · intro i hi
      apply inv.kept
      rintro ⟨y', x', hd, hs, e'⟩
      exact hi ⟨y', x', ((e y' x').2 ⟨hd, hs⟩).1, hs, e'⟩
    · rintro ⟨y', x', hd, hs, e'⟩
      exact inv.hit ⟨y', x', ((e y' x').1 ⟨hd, hs⟩).1, hs, e'⟩
    · intro hno
      apply inv.miss
      rintro ⟨y', x', hd, hs, e'⟩
      exact hno ⟨y', x', ((e y' x').2 ⟨hd, hs⟩).1, hs, e'⟩

/-- The inner loop, run for `n` of its 8 iterations, keeps the invariant. -/
theorem DrawInv.inner {s0 t : chip8} {y : Nat} (inv : DrawInv s0 t y 0) (n : Nat) (hn : n ≤ 8) :
    DrawInv s0 ((List.range n).foldl (draw_pixel (s0.memory (s0.I + y)) y) t) y n := by
  induction n with
  | zero => exact inv
  | succ n ih =>
    rw [List.range_succ, List.foldl_append]
    exact DrawInv.step (by omega) (ih (by omega))

/-- One iteration of the outer loop completes when its sprite row is inside
memory, and keeps the invariant. -/
theorem DrawInv.row {s0 t : chip8} {y : Nat} (inv : DrawInv s0 t y 0)
    (hI : s0.I + y < memory_size) :
    ∃ t', draw_row t y = .ok t' ∧ DrawInv s0 t' (y + 1) 0 := by
  have hmem : t.memory = s0.memory := by rw [inv.frame]
  have hidx : t.I = s0.I := by rw [inv.frame]
  unfold draw_row
  rw [hmem, hidx, if_pos hI]
  exact ⟨_, rfl, (inv.inner 8 (le_refl 8)).next_row⟩

/-- The outer loop, run for `n` rows that lie inside memory, completes and
keeps the invariant. -/
theorem DrawInv.outer (s0 : chip8) (n : Nat) (hI : ∀ r, r < n → s0.I + r < memory_size) :
    ∃ t, (List.range n).foldlM draw_row s0 = .ok t ∧ DrawInv s0 t n 0 := by
  induction n with
  | zero => exact ⟨s0, rfl, DrawInv.init s0⟩
  | succ n ih =>
    obtain ⟨t, ht, inv⟩ := ih (fun r hr => hI r (by omega))
    obtain ⟨t', ht', inv'⟩ := inv.row (hI n (by omega))
    refine ⟨t', ?_, inv'⟩
    rw [List.range_succ, List.foldlM_append, ht]
    simp only [List.foldlM_cons, List.foldlM_nil, bind, Except.bind, pure, Except.pure]
    rw [ht']

/-- Effect of case `0xD000` when the sprite rows lie inside memory: only `V`,
`gfx`, `draw_flag` and `pc` change; the cells under a set sprite bit are
flipped and no other; `VF` tells whether a flipped cell held 1. -/
theorem case_0xD000_spec (s : chip8)
    (hI : ∀ r, r < (s.opcode &&& 0x000F) → s.I + r < memory_size) :
    ∃ t, case_0xD000 s = .ok t ∧
      t = { s with V := t.V, gfx := t.gfx, draw_flag := true, pc := u16 (s.pc + 2) } ∧
      (∀ j, j ≠ 0xF → t.V j = s.V j) ∧
      (∀ i, flips s i → t.gfx i = s.gfx i ^^^ 1) ∧
      (∀ i, ¬ flips s i → t.gfx i = s.gfx i) ∧
      (collides s → t.V 0xF = 1) ∧
      (¬ collides s → t.V 0xF = 0) := by
  obtain ⟨t, ht, inv⟩ := DrawInv.outer { s with V := setAt s.V 0xF 0 } (s.opcode &&& 0x000F) hI
  have e : ∀ y x, drawn_before (s.opcode &&& 0x000F) 0 y x ↔ (y < (s.opcode &&& 0x000F) ∧ x < 8) := by
    intro y x; unfold drawn_before; omega
  refine ⟨pc_add2 { t with draw_flag := true }, ?_, ?_, ?_, ?_, ?_, ?_, ?_⟩
  · unfold case_0xD000
    simp only [ht]
  · unfold pc_add2
    conv_lhs => rw [inv.frame]
  · intro j hj
    have := inv.regs j hj
    simpa [pc_add2, setAt, hj] using this
  · rintro i ⟨y, x, hy, hx, hs, e'⟩
    exact inv.flipped i ⟨y, x, (e y x).2 ⟨hy, hx⟩, hs, e'⟩
  · intro i hi
    apply inv.kept
    rintro ⟨y, x, hd, hs, e'⟩
    exact hi ⟨y, x, ((e y x).1 hd).1, ((e y x).1 hd).2, hs, e'⟩
  · rintro ⟨y, x, hy, hx, hs, e'⟩
    exact inv.hit ⟨y, x, (e y x).2 ⟨hy, hx⟩, hs, e'⟩
  · intro hno
    have := inv.miss (by
      rintro ⟨y, x, hd, hs, e'⟩
      exact hno ⟨y, x, ((e y x).1 hd).1, ((e y x).1 hd).2, hs, e'⟩)
    simpa [setAt] using this

/-! ## Arithmetic and flag instructions -/

/-- C1, evaluated at `V0 = 200`, `V1 = 100`, instruction `8014`: the unmasked
sum 300 exceeds 255 and the step stores 300 mod 256 = 44 in `V0`, but it
leaves the flag register `VF` at 0.  The test `> 255` is applied to `V[X]`
after the 8-bit store, so it can never hold. -/
theorem add_vx_vy_overflow_leaves_flag_clear :
    255 < add_state.V 0 + add_state.V 1 ∧
    ∃ t, emulateCycle host0 add_state = .ok t ∧ t.V 0 = 44 ∧ t.V 0xF = 0 :=
  ⟨by decide, _, rfl, rfl, rfl⟩

/-- C2, evaluated at `V0 = 5`, `V1 = 3`, instruction `8015`: `V0` was strictly
greater than `V1` and the step stores 5 - 3 = 2 in `V0`, but it leaves `VF` at
0.  The comparison is made after the subtraction, between the difference 2 and
`V1 = 3`. -/
theorem sub_vx_vy_flag_from_difference :
    sub_state.V 1 < sub_state.V 0 ∧
    ∃ t, emulateCycle host0 sub_state = .ok t ∧ t.V 0 = 2 ∧ t.V 0xF = 0 :=
  ⟨by decide, _, rfl, rfl, rfl⟩

/-- C3, evaluated at `V0 = 0x80`, instruction `800E`: bit 7 of `V0` is 1 before
the shift and the step stores (0x80 * 2) mod 256 = 0 in `V0`, but it leaves
`VF` at 0.  The flag is computed from `V[X]` after the shift, as
`V[X] & 0x80`. -/
theorem shl_vx_flag_from_shifted_value :
    shl_state.V 0 / 128 % 2 = 1 ∧
    ∃ t, emulateCycle host0 shl_state = .ok t ∧ t.V 0 = 0 ∧ t.V 0xF = 0 :=
  ⟨by decide, _, rfl, rfl, rfl⟩

/-! ## Conditional skips -/

/-- C4, evaluated at three inputs.  `3005` with `V0 = 5`: the register equals
the immediate, yet pc advances by 2 only.  `4000` with `V0 = 5`: the register
differs from the immediate, yet pc advances by 2 only.  `5010` with
`V0 = V1 = 5`: the registers are equal, yet pc advances by 2 only.  In all
three cases the code compares the register selector `X` (here 0) with `KK` or
with the selector `Y`, not the register contents. -/
theorem skip_compares_register_selectors :
    (se_byte_state.V 0 = 5 ∧
      ∃ t, emulateCycle host0 se_byte_state = .ok t ∧ t.pc = se_byte_state.pc + 2) ∧
    (sne_byte_state.V 0 ≠ 0 ∧
      ∃ t, emulateCycle host0 sne_byte_state = .ok t ∧ t.pc = sne_byte_state.pc + 2) ∧
    (se_reg_state.V 0 = se_reg_state.V 1 ∧
      ∃ t, emulateCycle host0 se_reg_state = .ok t ∧ t.pc = se_reg_state.pc + 2) :=
  ⟨⟨rfl, _, rfl, rfl⟩, ⟨by decide, _, rfl, rfl⟩, ⟨rfl, _, rfl, rfl⟩⟩

/-! ## Sprite drawing -/

/-- C5, evaluated at instruction `D011` with `V0 = 60`, `V1 = 5` and the sprite
row `0xFF` on a clear framebuffer.  The cells of row 5 at columns 60, 61, 62,
63, 0, 1, 2, 3 all stay 0, and the cells set are columns 0 to 7 of row 1: the
code places the sprite at the register selectors `X = 0`, `Y = 1`, not at the
register values, and no coordinate is reduced modulo 64 or 32. -/
theorem draw_uses_register_selectors :
    ∃ t, emulateCycle host0 draw_state = .ok t ∧
      [60, 61, 62, 63, 0, 1, 2, 3].map (fun c => t.gfx (c + 5 * 64)) = [0, 0, 0, 0, 0, 0, 0, 0] ∧
      [0, 1, 2, 3, 4, 5, 6, 7].map (fun c => t.gfx (c + 1 * 64)) = [1, 1, 1, 1, 1, 1, 1, 1] :=
  ⟨_, rfl, rfl, rfl⟩

/-- A step on the bytes of `Dxyn` runs case `0xD000` on that opcode. -/
theorem execute_draw (h : Host) (s : chip8) (x y n : Nat) (hx : x < 16) (hy : y < 16)
    (hn : n < 16) (hpc : s.pc + 1 < memory_size) (h0 : s.memory s.pc = 0xD0 + x)
    (h1 : s.memory (s.pc + 1) = 16 * y + n) :
    emulateCycle h s = case_0xD000 { s with opcode := 0xD000 + 256 * x + 16 * y + n } := by
  rw [emulateCycle_eq h s _ _ hpc h0 h1 (by omega) (by omega)]
  have e : 256 * (0xD0 + x) + (16 * y + n) = 0xD000 + 256 * x + 16 * y + n := by omega
  rw [e, execute_0xD000 _ _ (by simp only []; omega)]

/-- The flipped cells depend on `opcode`, `memory` and `I` only. -/
theorem flips_congr {s t : chip8} (ho : t.opcode = s.opcode) (hm : t.memory = s.memory)
    (hi : t.I = s.I) (i : Nat) : flips t i ↔ flips s i := by
  unfold flips sprite_bit
  rw [ho, hm, hi]

/-- C6: when the instruction `Dxyn` stands at `pc` and again at `pc + 2`, and
the `n` sprite rows `memory[I .. I+n-1]` lie inside memory, two steps in a row
both complete and leave every framebuffer cell equal to its value before the
first step.  This holds for every framebuffer content and every `x`, `y`. -/
theorem draw_twice_restores_gfx (h : Host) (s : chip8) (x y n : Nat)
    (hx : x < 16) (hy : y < 16) (hn : n < 16)
    (hpc : s.pc + 3 < memory_size)
    (h0 : s.memory s.pc = 0xD0 + x) (h1 : s.memory (s.pc + 1) = 16 * y + n)
    (h2 : s.memory (s.pc + 2) = 0xD0 + x) (h3 : s.memory (s.pc + 3) = 16 * y + n)
    (hI : ∀ r, r < n → s.I + r < memory_size) :
    ∃ s1 s2, emulateCycle h s = .ok s1 ∧ emulateCycle h s1 = .ok s2 ∧
      ∀ i, s2.gfx i = s.gfx i := by
  have hlow : ∀ u : chip8,
      ({ u with opcode := 0xD000 + 256 * x + 16 * y + n } : chip8).opcode &&& 0x000F = n := by
    intro u; simp only [and_0x000F]; omega
  have hmsz : memory_size = 4096 := rfl
  -- first draw
  obtain ⟨s1, r1, f1, -, fl1, kp1, -, -⟩ :=
    case_0xD000_spec { s with opcode := 0xD000 + 256 * x + 16 * y + n }
      (by rw [hlow]; exact hI)
  have e1 := execute_draw h s x y n hx hy hn (by omega) h0 h1
  have pc1 : s1.pc = s.pc + 2 := by rw [f1]; simp only [u16]; omega
  have m1 : s1.memory = s.memory := by rw [f1]
  have i1 : s1.I = s.I := by rw [f1]
  -- second draw
  obtain ⟨s2, r2, -, -, fl2, kp2, -, -⟩ :=
    case_0xD000_spec { s1 with opcode := 0xD000 + 256 * x + 16 * y + n }
      (by rw [hlow]; simpa only [i1] using hI)
  have e2 := execute_draw h s1 x y n hx hy hn (by rw [pc1]; omega)
    (by rw [pc1, m1]; exact h2) (by rw [pc1, m1]; exact h3)
  refine ⟨s1, s2, e1.trans r1, e2.trans r2, ?_⟩
  intro i
  have hc := flips_congr (s := { s with opcode := 0xD000 + 256 * x + 16 * y + n })
    (t := { s1 with opcode := 0xD000 + 256 * x + 16 * y + n }) rfl m1 i1 i
  by_cases hf : flips { s with opcode := 0xD000 + 256 * x + 16 * y + n } i
  · rw [fl2 i (hc.2 hf)]
    have := fl1 i hf
    simp only at this ⊢
    rw [this, Nat.xor_assoc, Nat.xor_self, Nat.xor_zero]
  · rw [kp2 i (fun c => hf (hc.1 c))]
    exact kp1 i hf

/-- Witness for C6: `D012` drawn twice over a framebuffer
with two cells set. -/
theorem draw_twice_restores_gfx_witness :
    (redraw_state.pc + 3 < memory_size ∧
      redraw_state.memory redraw_state.pc = 0xD0 + 0 ∧
      redraw_state.memory (redraw_state.pc + 1) = 16 * 1 + 2 ∧
      redraw_state.memory (redraw_state.pc + 2) = 0xD0 + 0 ∧
      redraw_state.memory (redraw_state.pc + 3) = 16 * 1 + 2 ∧
      ∀ r, r < 2 → redraw_state.I + r < memory_size) ∧
    ∃ s1 s2, emulateCycle host0 redraw_state = .ok s1 ∧ emulateCycle host0 s1 = .ok s2 ∧
      ∀ i, s2.gfx i = redraw_state.gfx i :=
  ⟨⟨by decide, rfl, rfl, rfl, rfl, by decide⟩,
    draw_twice_restores_gfx host0 redraw_state 0 1 2 (by decide) (by decide) (by decide)
      (by decide) rfl rfl rfl rfl (by decide)⟩

/-- C7: when the instruction `Dxyn` stands at `pc` and the `n` sprite rows lie
inside memory, the step completes, and afterwards `VF` is 1 if some
framebuffer cell that held 1 before the step holds 0 after it, and `VF` is 0
if there is no such cell, whatever `VF` held before.  This holds for every
framebuffer content. -/
theorem draw_collision_flag (h : Host) (s : chip8) (x y n : Nat)
    (hx : x < 16) (hy : y < 16) (hn : n < 16)
    (hpc : s.pc + 1 < memory_size)
    (h0 : s.memory s.pc = 0xD0 + x) (h1 : s.memory (s.pc + 1) = 16 * y + n)
    (hI : ∀ r, r < n → s.I + r < memory_size) :
    ∃ t, emulateCycle h s = .ok t ∧
      ((∃ i, i < gfx_size ∧ s.gfx i = 1 ∧ t.gfx i = 0) → t.V 0xF = 1) ∧
      ((¬ ∃ i, i < gfx_size ∧ s.gfx i = 1 ∧ t.gfx i = 0) → t.V 0xF = 0) := by
  have hlow : ({ s with opcode := 0xD000 + 256 * x + 16 * y + n } : chip8).opcode &&& 0x000F = n := by
    simp only [and_0x000F]; omega
  obtain ⟨t, r, -, -, fl, kp, hit, miss⟩ :=
    case_0xD000_spec { s with opcode := 0xD000 + 256 * x + 16 * y + n }
      (by rw [hlow]; exact hI)
  refine ⟨t, (execute_draw h s x y n hx hy hn hpc h0 h1).trans r, ?_, ?_⟩
  · rintro ⟨i, -, hs, ht⟩
    apply hit
    by_cases hf : flips { s with opcode := 0xD000 + 256 * x + 16 * y + n } i
    · obtain ⟨yl, xl, hyl, hxl, hb, rfl⟩ := hf
      exact ⟨yl, xl, hyl, hxl, hb, hs⟩
    · have := kp i hf
      simp only at this
      omega
  · intro hno
    apply miss
    rintro ⟨yl, xl, hyl, hxl, hb, hs⟩
    apply hno
    refine ⟨_, gfx_index_lt _ yl xl (by rw [hlow] at hyl; omega) hxl, hs, ?_⟩
    have := fl _ ⟨yl, xl, hyl, hxl, hb, rfl⟩
    rw [this]
    simp only at hs ⊢
    rw [hs]
    rfl

/-- Witness for C7: `D011` drawn over a framebuffer in which
cell 66, under the sprite, is set and `VF` holds 7. -/
theorem draw_collision_flag_witness :
    (collide_state.pc + 1 < memory_size ∧
      collide_state.memory collide_state.pc = 0xD0 + 0 ∧
      collide_state.memory (collide_state.pc + 1) = 16 * 1 + 1 ∧
      ∀ r, r < 1 → collide_state.I + r < memory_size) ∧
    ∃ t, emulateCycle host0 collide_state = .ok t ∧
      ((∃ i, i < gfx_size ∧ collide_state.gfx i = 1 ∧ t.gfx i = 0) → t.V 0xF = 1) ∧
      ((¬ ∃ i, i < gfx_size ∧ collide_state.gfx i = 1 ∧ t.gfx i = 0) → t.V 0xF = 0) :=
  ⟨⟨by decide, rfl, rfl, by decide⟩,
    draw_collision_flag host0 collide_state 0 1 1 (by decide) (by decide) (by decide)
      (by decide) rfl rfl (by decide)⟩

/-! ## Call stack -/

/-- C8, evaluated at `2300` (CALL 0x300) at `p = 0x200` followed by `00EE` (RET)
at `0x300`, on an empty stack: after the two steps the stack pointer is back
at 0 but pc is 1, not `p + 2 = 0x202`.  The call stores `p` in `stack[0]` and
then increments `sp` to 1; the return reads `stack[1]`, the slot above the one
written, and adds 1. -/
theorem call_then_ret_misses_return_address :
    ∃ t, emulateCycles host0 2 call_ret_state = .ok t ∧ t.pc = 1 ∧ t.sp = 0 ∧
      call_ret_state.pc + 2 = 0x202 :=
  ⟨_, rfl, rfl, rfl, rfl⟩

/-- C10, evaluated at `F033` with `V0 = 234` and `I = 0x300`: the step writes
4, 3, 2 at `I`, `I + 1`, `I + 2`, the ones digit first and the hundreds digit
last, where 2, 3, 4 is claimed. -/
theorem bcd_digits_stored_in_reverse :
    bcd_state.V 0 = 234 ∧
    ∃ t, emulateCycle host0 bcd_state = .ok t ∧
      t.memory bcd_state.I = 4 ∧ t.memory (bcd_state.I + 1) = 3 ∧
      t.memory (bcd_state.I + 2) = 2 :=
  ⟨rfl, _, rfl, rfl, rfl, rfl⟩

/-! ## Decode failure -/

/-- C11, evaluated at the instruction word `5231` with `V2 = V3 = 7`: the word
matches no opcode pattern, yet the step reports nothing (nothing is written to
`std::cout`) and moves pc from `0x200` to `0x202`.  Case `0x5000` never looks
at the low nibble, so the word runs as a skip on the selectors 2 and 3. -/
theorem word_5231_runs_as_skip :
    ∃ t, emulateCycle host0 word_5231_state = .ok t ∧ t.cout = [] ∧
      word_5231_state.pc = 0x200 ∧ t.pc = 0x202 :=
  ⟨_, rfl, rfl, rfl, rfl⟩

/-! ## Timers -/

/-- One tick on 8-bit timers: each timer goes down by one unless it is 0. -/
theorem timer_tick_eq (s : chip8) (hd : s.delay_timer < 256) (hs : s.sound_timer < 256) :
    (timer_tick s).delay_timer = s.delay_timer - 1 ∧
    (timer_tick s).sound_timer = s.sound_timer - 1 := by
  unfold timer_tick u8i
  constructor
  · by_cases c1 : s.delay_timer > 0 <;> by_cases c2 : s.sound_timer > 0 <;>
      simp only [c1, c2, if_true, if_false] <;> omega
  · by_cases c1 : s.delay_timer > 0 <;> by_cases c2 : s.sound_timer > 0 <;>
      simp only [c1, c2, if_true, if_false] <;> omega

/-- After `n` ticks on 8-bit timers each timer has lost `n`, stopping at 0. -/
theorem timer_ticks_eq (n : Nat) : ∀ s : chip8, s.delay_timer < 256 → s.sound_timer < 256 →
    (timer_ticks n s).delay_timer = s.delay_timer - n ∧
    (timer_ticks n s).sound_timer = s.sound_timer - n := by
  induction n with
  | zero => intro s _ _; exact ⟨rfl, rfl⟩
  | succ n ih =>
    intro s hd hs
    obtain ⟨e1, e2⟩ := timer_tick_eq s hd hs
    obtain ⟨f1, f2⟩ := ih (timer_tick s) (by omega) (by omega)
    simp only [timer_ticks]
    omega

/-- C12: on timers that hold 8-bit values, one iteration of the loop body of
`timer_loop` lowers the delay timer by 1 if it is nonzero and leaves it 0
otherwise, and does the same to the sound timer; no iteration raises a timer;
and after `n` iterations the delay timer is `max (d - n) 0` and the sound timer
is `max (s - n) 0`, computed over the integers. -/
theorem timer_ticks_saturate (s : chip8) (n : Nat)
    (hd : s.delay_timer < 256) (hs : s.sound_timer < 256) :
    (timer_tick s).delay_timer = (if s.delay_timer ≠ 0 then s.delay_timer - 1 else 0) ∧
    (timer_tick s).sound_timer = (if s.sound_timer ≠ 0 then s.sound_timer - 1 else 0) ∧
    (timer_tick s).delay_timer ≤ s.delay_timer ∧
    (timer_tick s).sound_timer ≤ s.sound_timer ∧
    ((timer_ticks n s).delay_timer : Int) = max ((s.delay_timer : Int) - n) 0 ∧
    ((timer_ticks n s).sound_timer : Int) = max ((s.sound_timer : Int) - n) 0 := by
  obtain ⟨e1, e2⟩ := timer_tick_eq s hd hs
  obtain ⟨f1, f2⟩ := timer_ticks_eq n s hd hs
  refine ⟨?_, ?_, by omega, by omega, by omega, by omega⟩
  · split <;> omega
  · split <;> omega

/-- Witness for C12: a delay timer started at 10 and a sound timer started at 3
both read 0 after 60 ticks. -/
theorem timer_ticks_saturate_witness :
    (timer_state.delay_timer < 256 ∧ timer_state.sound_timer < 256) ∧
    timer_state.delay_timer = 10 ∧
    (timer_ticks 60 timer_state).delay_timer = 0 ∧
    (timer_ticks 60 timer_state).sound_timer = 0 := by
  have w := timer_ticks_saturate timer_state 60 (by decide) (by decide)
  refine ⟨⟨by decide, by decide⟩, rfl, ?_, ?_⟩
  · have := w.2.2.2.2.1
    simp only [timer_state] at this ⊢
    omega
  · have := w.2.2.2.2.2
    simp only [timer_state] at this ⊢
    omega

/-! ## Initialisation -/

/-- The loop of `timer_loop` returns within no number of iterations. -/
theorem timer_loop_none (fuel : Nat) : ∀ s : chip8, timer_loop fuel s = none := by
  induction fuel with
  | zero => intro s; rfl
  | succ n ih => intro s; exact ih (timer_tick s)

/-- C13, for every prior state, every font table and every number of loop
iterations followed: the call `initialize()` has not returned, because its
last statement is the call of `timer_loop()`, whose loop `for(;;)` has no
exit.  Moreover the statements before that call assign neither `pc` nor
`opcode`: pc keeps the value of the prior state and is not set to `0x200`. -/
theorem initialize_never_returns (fuel : Nat) (chip8_fontset : Nat → Nat) (s : chip8) :
    chip8.initialize fuel chip8_fontset s = none ∧
    (reset_members chip8_fontset s).pc = s.pc :=
  ⟨timer_loop_none fuel _, rfl⟩

/-! ## Program counter advance -/

/-- C14, evaluated at six instructions placed at `0x200`.  `00E0` (CLS), `F007`
(LD V0, DT) and `F033` (LD B, V0) leave pc at `0x200`: their cases hold no
`pc += 2`.  `F015` (LD DT, V0), `F018` (LD ST, V0) and `F01E` (ADD I, V0) move
pc to `0x204`: after their own `pc += 2` control falls through into case
`0x0020`, which adds 2 again. -/
theorem pc_advance_not_two :
    (∃ t, emulateCycle host0 (rom [0x00, 0xE0]) = .ok t ∧ t.pc = 0x200) ∧
    (∃ t, emulateCycle host0 (rom [0xF0, 0x07]) = .ok t ∧ t.pc = 0x200) ∧
    (∃ t, emulateCycle host0 (rom [0xF0, 0x33]) = .ok t ∧ t.pc = 0x200) ∧
    (∃ t, emulateCycle host0 (rom [0xF0, 0x15]) = .ok t ∧ t.pc = 0x204) ∧
    (∃ t, emulateCycle host0 (rom [0xF0, 0x18]) = .ok t ∧ t.pc = 0x204) ∧
    (∃ t, emulateCycle host0 (rom [0xF0, 0x1E]) = .ok t ∧ t.pc = 0x204) :=
  ⟨⟨_, rfl, rfl⟩, ⟨_, rfl, rfl⟩, ⟨_, rfl, rfl⟩, ⟨_, rfl, rfl⟩, ⟨_, rfl, rfl⟩, ⟨_, rfl, rfl⟩⟩

/-! ## Index register instructions -/

/-- C15, evaluated at `F029` with `V0 = 2` and the byte `0xF0` at address 10:
the step sets the index register to `0xF0`, the byte stored at address
`2 * 5`, and not to the address 10. -/
theorem font_address_loads_stored_byte :
    font_state.V 0 = 2 ∧ font_state.memory (2 * 5) = 0xF0 ∧
    ∃ t, emulateCycle host0 font_state = .ok t ∧ t.I = 0xF0 :=
  ⟨rfl, rfl, _, rfl, rfl⟩

/-- C16, evaluated at `F155` with `V0 = 0xAA`, `V1 = 0xBB`, `I = 0x300`: the
step writes `V0` at `I` but leaves the byte at `I + 1` as it was (`0x22`);
register `V1` is not stored.  The loop runs for `i < X`, not `i <= X`. -/
theorem store_registers_skips_vx :
    store_state.V 1 = 0xBB ∧ store_state.memory (store_state.I + 1) = 0x22 ∧
    ∃ t, emulateCycle host0 store_state = .ok t ∧
      t.memory store_state.I = 0xAA ∧ t.memory (store_state.I + 1) = 0x22 :=
  ⟨rfl, rfl, _, rfl, rfl, rfl⟩

/-- C17, evaluated at `F01E` with `V0 = 3`, `I = 0x300` and the byte `0x70` at
address 15: the step ends with the index register at `0x70`, not at
`0x303`.  After `I += V[X]` control falls through into case `0x0020`, which
overwrites `I` with `memory[V[X] * 5]`. -/
theorem add_index_overwritten_by_fallthrough :
    (add_index_state.I + add_index_state.V 0) % 65536 = 0x303 ∧
    ∃ t, emulateCycle host0 add_index_state = .ok t ∧ t.I = 0x70 :=
  ⟨rfl, _, rfl, rfl⟩

/-! ## Indexed jump -/

/-- C18, evaluated at `B300` with `V0 = 4`: the step ends with pc at `0x306`,
that is `nnn + V0 + 2`, not at `nnn + V0 = 0x304`.  The case adds `pc += 2`
after the jump. -/
theorem jump_v0_adds_two :
    NNN 0xB300 + jump_v0_state.V 0 = 0x304 ∧
    ∃ t, emulateCycle host0 jump_v0_state = .ok t ∧ t.pc = 0x306 :=
  ⟨rfl, _, rfl, rfl⟩

/-! ## Reverse subtraction and right shift -/

/-- Dispatch on a top nibble of 8. -/
theorem execute_0x8000 (h : Host) (s : chip8) (ht : s.opcode / 4096 % 16 = 8) :
    execute h s = .ok (case_0x8000 s) := by
  unfold execute
  simp only [and_0xF000, ht]
  simp

/-- A step on the bytes of `8xyk` runs case `0x8000` on that opcode. -/
theorem execute_alu (h : Host) (s : chip8) (x y k : Nat) (hx : x < 16) (hy : y < 16)
    (hk : k < 16) (hpc : s.pc + 1 < memory_size) (h0 : s.memory s.pc = 0x80 + x)
    (h1 : s.memory (s.pc + 1) = 16 * y + k) :
    emulateCycle h s = .ok (case_0x8000 { s with opcode := 0x8000 + 256 * x + 16 * y + k }) := by
  rw [emulateCycle_eq h s _ _ hpc h0 h1 (by omega) (by omega)]
  have e : 256 * (0x80 + x) + (16 * y + k) = 0x8000 + 256 * x + 16 * y + k := by omega
  rw [e, execute_0x8000 _ _ (by simp only []; omega)]

/-- C19: when the instruction `8xy7` stands at `pc`, with `x` and `y` both
other than 15, the step completes; afterwards `VF` is 1 if `V[y]` was strictly
greater than `V[x]` before the step and 0 otherwise, and `V[x]` is the
difference old `V[y]` minus old `V[x]` reduced modulo 256. -/
theorem subn_flag_and_difference (h : Host) (s : chip8) (x y : Nat)
    (hx : x < 16) (hy : y < 16) (hxf : x ≠ 15) (hyf : y ≠ 15)
    (hpc : s.pc + 1 < memory_size)
    (h0 : s.memory s.pc = 0x80 + x) (h1 : s.memory (s.pc + 1) = 16 * y + 7) :
    ∃ t, emulateCycle h s = .ok t ∧
      t.V 0xF = (if s.V y > s.V x then 1 else 0) ∧
      (t.V x : Int) = ((s.V y : Int) - (s.V x : Int)) % 256 := by
  refine ⟨_, execute_alu h s x y 7 hx hy (by omega) hpc h0 h1, ?_, ?_⟩
  · have hl : (0x8000 + 256 * x + 16 * y + 7) % 16 = 7 := by omega
    have hX : X (0x8000 + 256 * x + 16 * y + 7) = x := by unfold X; omega
    have hY : Y (0x8000 + 256 * x + 16 * y + 7) = y := by unfold Y; omega
    simp [case_0x8000, and_0x000F, hl, hX, hY, pc_add2, setAt, hxf, hyf, Ne.symm hxf]
  · have hl : (0x8000 + 256 * x + 16 * y + 7) % 16 = 7 := by omega
    have hX : X (0x8000 + 256 * x + 16 * y + 7) = x := by unfold X; omega
    have hY : Y (0x8000 + 256 * x + 16 * y + 7) = y := by unfold Y; omega
    simp [case_0x8000, and_0x000F, hl, hX, hY, pc_add2, setAt, hxf, hyf, u8i]
    omega

/-- Witness for C19: `8017` with `V0 = 9` and `V1 = 5`. -/
theorem subn_flag_and_difference_witness :
    (subn_state.pc + 1 < memory_size ∧ subn_state.memory subn_state.pc = 0x80 + 0 ∧
      subn_state.memory (subn_state.pc + 1) = 16 * 1 + 7) ∧
    ∃ t, emulateCycle host0 subn_state = .ok t ∧
      t.V 0xF = (if subn_state.V 1 > subn_state.V 0 then 1 else 0) ∧
      (t.V 0 : Int) = ((subn_state.V 1 : Int) - (subn_state.V 0 : Int)) % 256 :=
  ⟨⟨by decide, rfl, rfl⟩,
    subn_flag_and_difference host0 subn_state 0 1 (by decide) (by decide) (by decide)
      (by decide) (by decide) rfl rfl⟩

/-- C20: when the instruction `8xy6` stands at `pc`, with `x` other than 15 and
an 8-bit value in `V[x]`, the step completes; afterwards `VF` is the
least-significant bit of old `V[x]` and `V[x]` is old `V[x]` divided by 2,
rounded down. -/
theorem shr_flag_and_half (h : Host) (s : chip8) (x y : Nat)
    (hx : x < 16) (hy : y < 16) (hxf : x ≠ 15) (hv : s.V x < 256)
    (hpc : s.pc + 1 < memory_size)
    (h0 : s.memory s.pc = 0x80 + x) (h1 : s.memory (s.pc + 1) = 16 * y + 6) :
    ∃ t, emulateCycle h s = .ok t ∧ t.V 0xF = s.V x % 2 ∧ t.V x = s.V x / 2 := by
  refine ⟨_, execute_alu h s x y 6 hx hy (by omega) hpc h0 h1, ?_, ?_⟩
  · have hl : (0x8000 + 256 * x + 16 * y + 6) % 16 = 6 := by omega
    have hX : X (0x8000 + 256 * x + 16 * y + 6) = x := by unfold X; omega
    simp [case_0x8000, and_0x000F, hl, hX, pc_add2, setAt, hxf, Ne.symm hxf, u8]
    omega
  · have hl : (0x8000 + 256 * x + 16 * y + 6) % 16 = 6 := by omega
    have hX : X (0x8000 + 256 * x + 16 * y + 6) = x := by unfold X; omega
    simp [case_0x8000, and_0x000F, hl, hX, pc_add2, setAt, hxf, u8, Nat.shiftRight_eq_div_pow]
    omega

/-- Witness for C20: `8006` with `V0 = 7`. -/
theorem shr_flag_and_half_witness :
    (shr_state.V 0 < 256 ∧ shr_state.pc + 1 < memory_size ∧
      shr_state.memory shr_state.pc = 0x80 + 0 ∧
      shr_state.memory (shr_state.pc + 1) = 16 * 0 + 6) ∧
    ∃ t, emulateCycle host0 shr_state = .ok t ∧ t.V 0xF = shr_state.V 0 % 2 ∧
      t.V 0 = shr_state.V 0 / 2 :=
  ⟨⟨by decide, by decide, rfl, rfl⟩,
    shr_flag_and_half host0 shr_state 0 0 (by decide) (by decide) (by decide) (by decide)
      (by decide) rfl rfl⟩

/-! ## Timer-set instructions -/

/-- C21, evaluated at `F015` and at `F018`, each with `V0 = 3`, `I = 0x300` and
the byte `0x70` at address 15.  The step sets the addressed timer to 3 and
leaves the other timer at 9, but the index register ends at `0x70`, not at
`0x300`: after the timer store control falls through into case `0x0020`,
which overwrites `I` with `memory[V[X] * 5]`. -/
theorem timer_set_overwrites_index :
    (set_delay_state.I = 0x300 ∧
      ∃ t, emulateCycle host0 set_delay_state = .ok t ∧
        t.delay_timer = 3 ∧ t.sound_timer = 9 ∧ t.I = 0x70) ∧
    (set_sound_state.I = 0x300 ∧
      ∃ t, emulateCycle host0 set_sound_state = .ok t ∧
        t.sound_timer = 3 ∧ t.delay_timer = 9 ∧ t.I = 0x70) :=
  ⟨⟨rfl, _, rfl, rfl, rfl, rfl⟩, ⟨rfl, _, rfl, rfl, rfl, rfl⟩⟩

end chip8
